import Mathlib

/-!
Shallow embedding of the pictionary session coordinator
(`src/server/index.js`): the `Game` class, the module-level `games` map,
and the socket event handlers (`joinRoom`, `startGame`, `draw`,
`clearCanvas`, `guess`, `disconnect`).

Modelling conventions:
* JavaScript strings are Lean `String`; the phase field `gameState` keeps
  the source's string values `"waiting"`, `"playing"`, `"finished"`.
* The `scores` object is an association list `String × JsNum`, where
  `JsNum` distinguishes an ordinary integer from `NaN` (which JavaScript
  produces for `undefined + 10` when `scores[id] += 10` hits a missing
  key).
* `Math.floor(Math.random() * words.length)` is modelled by a
  caller-supplied draw `r : Nat` reduced modulo `words.length`.
* Stroke payloads are stored and relayed opaquely by the server, exactly
  as in the source; they are embedded as an uninterpreted wrapper.
* Handlers return the updated registry together with the emitted
  events, each tagged with its audience (`socket.emit` → sender,
  `socket.to(room).emit` → room except sender, `io.to(room).emit` →
  whole room).  `guess` returns `Option` because `Game.nextRound`
  dereferences `players[nextDrawerIndex].id`, which throws in
  JavaScript when `players` is empty; `none` models that exception.
-/

/-- A JavaScript number restricted to the values the coordinator can
produce in `scores`: an integer or `NaN`. -/
inductive JsNum where
  | num (v : Int)
  | nan
deriving DecidableEq, Repr

/-- A room member: `{ id: socket.id, name: playerName }`. -/
structure Player where
  id : String
  name : String
deriving DecidableEq, Repr

/-- Uninterpreted stroke payload: the server stores and relays the `data` field
of a `draw` message without interpreting it. -/
structure StrokeData where
  payload : String
deriving DecidableEq, Repr

/-- The fixed vocabulary `words` from the source. -/
def words : List String :=
  ["cat", "dog", "house", "tree", "car", "bike", "sun", "moon", "star",
   "flower", "book", "phone", "computer", "table", "chair", "door",
   "window", "clock", "apple", "banana", "pizza", "hamburger", "coffee",
   "water", "mountain", "ocean", "beach", "forest", "city", "bridge",
   "airplane", "train", "boat"]

/-- One `Game` instance: the per-room state owned by the coordinator. -/
structure Game where
  roomId : String
  players : List Player
  currentDrawer : Option String
  currentWord : String
  gameState : String
  round : Nat
  maxRounds : Nat
  scores : List (String × JsNum)
  drawingData : List StrokeData
deriving DecidableEq, Repr

/-- Association-list read of a JavaScript object property. -/
def scoresGet (scores : List (String × JsNum)) (k : String) : Option JsNum :=
  match scores with
  | [] => none
  | e :: rest => if e.1 = k then some e.2 else scoresGet rest k

/-- Association-list write of a JavaScript object property: overwrite the
existing key or append a new one. -/
def scoresSet (scores : List (String × JsNum)) (k : String) (v : JsNum) :
    List (String × JsNum) :=
  match scores with
  | [] => [(k, v)]
  | e :: rest => if e.1 = k then (k, v) :: rest else e :: scoresSet rest k v

/-- Models `delete scores[k]`. -/
def scoresDel (scores : List (String × JsNum)) (k : String) :
    List (String × JsNum) :=
  scores.filter (fun e => e.1 ≠ k)

/-- Models `new Game(roomId)`. -/
def Game.new (roomId : String) : Game :=
  { roomId := roomId
    players := []
    currentDrawer := none
    currentWord := ""
    gameState := "waiting"
    round := 0
    maxRounds := 3
    scores := []
    drawingData := [] }

/-- JavaScript's `String.prototype.toLowerCase()`, character-wise (the
vocabulary and guesses are plain ASCII). -/
def jsToLowerCase (s : String) : String :=
  ⟨s.data.map Char.toLower⟩

/-- Models `getRandomWord()`, with the random draw `r` supplied by the
caller. -/
def getRandomWord (r : Nat) : String :=
  (words.get? (r % words.length)).getD ""

/-- Models `Game.addPlayer`: push the player and set their score to 0. -/
def Game.addPlayer (g : Game) (playerId playerName : String) : Game :=
  { g with
    players := g.players ++ [{ id := playerId, name := playerName }]
    scores := scoresSet g.scores playerId (JsNum.num 0) }

/-- Models `Game.removePlayer`: filter the player out and delete their
score. -/
def Game.removePlayer (g : Game) (playerId : String) : Game :=
  { g with
    players := g.players.filter (fun p => p.id ≠ playerId)
    scores := scoresDel g.scores playerId }

/-- Models `Game.startGame`: fails (returning the state unchanged and `false`)
when fewer than two players are present; otherwise enters the playing
phase.  The source does not consult `gameState` here. -/
def Game.startGame (g : Game) (r : Nat) : Game × Bool :=
  if g.players.length < 2 then (g, false)
  else
    ({ g with
        gameState := "playing"
        round := 1
        currentDrawer := (g.players.get? 0).map Player.id
        currentWord := getRandomWord r
        drawingData := [] }, true)

/-- Models `Game.nextRound`: increment the round; past `maxRounds` finish the
game, otherwise rotate the drawer by
`(findIndex(currentDrawer) + 1) % players.length` and draw a new word.
`none` models the JavaScript `TypeError` raised by
`players[nextDrawerIndex].id` when `players` is empty.
`nextDrawerIndex` mirrors the source's locals: `findIndex` yields `-1`
on a miss, so `(currentDrawerIndex + 1)` is `i + 1` on a hit and `0` on
a miss, reduced modulo `players.length`. -/
def Game.nextDrawerIndex (g : Game) : Nat :=
  (match g.players.findIdx? (fun p => g.currentDrawer = some p.id) with
   | some i => i + 1
   | none => 0) % g.players.length

/-- Continuation of `Game.nextRound`; see `Game.nextDrawerIndex` for the
rotation arithmetic. -/
def Game.nextRound (g : Game) (r : Nat) : Option (Game × Bool) :=
  let g1 := { g with round := g.round + 1 }
  if g1.round > g1.maxRounds then
    some ({ g1 with gameState := "finished" }, false)
  else
    match g1.players.get? g1.nextDrawerIndex with
    | some p =>
        some ({ g1 with
                  currentDrawer := some p.id
                  currentWord := getRandomWord r
                  drawingData := [] }, true)
    | none => none

/-- Models `Game.addDrawingData`. -/
def Game.addDrawingData (g : Game) (data : StrokeData) : Game :=
  { g with drawingData := g.drawingData ++ [data] }

/-- Models `Game.clearDrawing`. -/
def Game.clearDrawing (g : Game) : Game :=
  { g with drawingData := [] }

/-- Models `game.scores[socket.id] += 10`: adds 10 to a present integer entry;
a missing entry or a `NaN` entry becomes `NaN` (JavaScript
`undefined + 10` and `NaN + 10`). -/
def Game.bumpScore (g : Game) (sid : String) : Game :=
  { g with
    scores := scoresSet g.scores sid
      (match scoresGet g.scores sid with
       | some (JsNum.num v) => JsNum.num (v + 10)
       | some JsNum.nan => JsNum.nan
       | none => JsNum.nan) }

/-- The module-level `games` map, as an association list keyed by room
id (a JavaScript `Map` iterated in insertion order). -/
abbrev Games : Type := List (String × Game)

/-- Models `games.get(roomId)`. -/
def gamesGet (games : Games) (k : String) : Option Game :=
  match games with
  | [] => none
  | e :: rest => if e.1 = k then some e.2 else gamesGet rest k

/-- Models `games.set(roomId, game)` (key update or insertion). -/
def gamesSet (games : Games) (k : String) (g : Game) : Games :=
  match games with
  | [] => [(k, g)]
  | e :: rest => if e.1 = k then (k, g) :: rest else e :: gamesSet rest k g

/-- Models `games.delete(roomId)`. -/
def gamesDel (games : Games) (k : String) : Games :=
  match games with
  | [] => []
  | e :: rest => if e.1 = k then rest else e :: gamesDel rest k

/-- Audience of an outbound event. -/
inductive Audience where
  | sender
  | roomExceptSender (roomId : String)
  | wholeRoom (roomId : String)
deriving DecidableEq, Repr

/-- Outbound events, with the payload fields the source emits. -/
inductive Event where
  | roomJoined (roomId : String) (players : List Player) (gameState : String)
  | playerJoined (playerId playerName : String)
  | playerLeft (playerId playerName : String)
  | gameStarted (currentDrawer : Option String) (currentWord : String)
      (round maxRounds : Nat)
  | drawing (data : StrokeData)
  | canvasCleared
  | correctGuess (playerId playerName guess : String)
  | wrongGuess (playerName guess : String)
  | nextRoundEv (currentDrawer : Option String) (currentWord : String)
      (round : Nat) (scores : List (String × JsNum))
  | gameFinished (scores : List (String × JsNum)) (players : List Player)
deriving DecidableEq, Repr

/-- The `joinRoom` handler: lazily create the room, add the player,
answer the sender with `roomJoined` and the rest of the room with
`playerJoined`. -/
def joinRoomHandler (games : Games) (sid roomId playerName : String) :
    Games × List (Audience × Event) :=
  let game :=
    match gamesGet games roomId with
    | some g => g
    | none => Game.new roomId
  let game1 := game.addPlayer sid playerName
  (gamesSet games roomId game1,
   [(Audience.sender, Event.roomJoined roomId game1.players game1.gameState),
    (Audience.roomExceptSender roomId, Event.playerJoined sid playerName)])

/-- The `startGame` handler: missing room or failed `startGame()` is a
silent no-op; otherwise broadcast `gameStarted` to the whole room. -/
def startGameHandler (games : Games) (roomId : String) (r : Nat) :
    Games × List (Audience × Event) :=
  match gamesGet games roomId with
  | none => (games, [])
  | some game =>
    match game.startGame r with
    | (game1, true) =>
        (gamesSet games roomId game1,
         [(Audience.wholeRoom roomId,
           Event.gameStarted game1.currentDrawer game1.currentWord
             game1.round game1.maxRounds)])
    | (_, false) => (games, [])

/-- The `draw` handler: only effective on an existing room in the
playing phase; relays the stroke to the room except the sender. -/
def drawHandler (games : Games) (roomId : String) (data : StrokeData) :
    Games × List (Audience × Event) :=
  match gamesGet games roomId with
  | none => (games, [])
  | some game =>
    if game.gameState = "playing" then
      (gamesSet games roomId (game.addDrawingData data),
       [(Audience.roomExceptSender roomId, Event.drawing data)])
    else (games, [])

/-- The `clearCanvas` handler: clears the stroke log of an existing room
unconditionally and notifies the room except the sender. -/
def clearCanvasHandler (games : Games) (roomId : String) :
    Games × List (Audience × Event) :=
  match gamesGet games roomId with
  | none => (games, [])
  | some game =>
    (gamesSet games roomId game.clearDrawing,
     [(Audience.roomExceptSender roomId, Event.canvasCleared)])

/-- The `guess` handler.  The source's condition is
`game && game.gameState === 'playing' && currentWord.toLowerCase() ===
guess.toLowerCase()`; every failure of it (including a missing room)
falls into the wrong-guess branch.  On a match the guesser's score is
bumped, `correctGuess` goes to the whole room, and `nextRound` decides
between `nextRound` and `gameFinished` broadcasts. -/
def guessHandler (games : Games) (sid roomId guess playerName : String)
    (r : Nat) : Option (Games × List (Audience × Event)) :=
  match gamesGet games roomId with
  | none =>
      some (games,
        [(Audience.roomExceptSender roomId, Event.wrongGuess playerName guess)])
  | some game =>
    if game.gameState = "playing" ∧
        jsToLowerCase game.currentWord = jsToLowerCase guess then
      let game1 := game.bumpScore sid
      let ev1 := (Audience.wholeRoom roomId,
                  Event.correctGuess sid playerName guess)
      match game1.nextRound r with
      | some (game2, true) =>
          some (gamesSet games roomId game2,
            [ev1,
             (Audience.wholeRoom roomId,
              Event.nextRoundEv game2.currentDrawer game2.currentWord
                game2.round game2.scores)])
      | some (game2, false) =>
          some (gamesSet games roomId game2,
            [ev1,
             (Audience.wholeRoom roomId,
              Event.gameFinished game2.scores game2.players)])
      | none => none
    else
      some (games,
        [(Audience.roomExceptSender roomId, Event.wrongGuess playerName guess)])

/-- Per-entry effect of the `disconnect` handler on one registry entry:
if the disconnecting socket is a member, remove it, emit `playerLeft`
to the room except the sender, and drop the room when it became empty. -/
def disconnectEntry (sid : String) (entry : String × Game) :
    Option (String × Game) × List (Audience × Event) :=
  match entry.2.players.find? (fun p => p.id = sid) with
  | some player =>
      let game1 := entry.2.removePlayer sid
      let evs := [(Audience.roomExceptSender entry.1,
                   Event.playerLeft sid player.name)]
      if game1.players.length = 0 then (none, evs)
      else (some (entry.1, game1), evs)
  | none => (some entry, [])

/-- The `disconnect` handler: walk every room the connection belongs to,
remove the player, and delete rooms that became empty. -/
def disconnectHandler (games : Games) (sid : String) :
    Games × List (Audience × Event) :=
  (games.filterMap (fun e => (disconnectEntry sid e).1),
   games.foldr (fun e acc => (disconnectEntry sid e).2 ++ acc) [])

/-- Inbound intents of the coordinator, each carrying the connection
identity and payload of the corresponding socket message. -/
inductive Intent where
  | join (sid roomId playerName : String)
  | start (roomId : String) (r : Nat)
  | stroke (roomId : String) (data : StrokeData)
  | clear (roomId : String)
  | guess (sid roomId text playerName : String) (r : Nat)
  | disconnect (sid : String)
deriving DecidableEq, Repr

/-- Dispatch one inbound intent to its handler. -/
def applyIntent (games : Games) : Intent →
    Option (Games × List (Audience × Event))
  | Intent.join sid roomId playerName =>
      some (joinRoomHandler games sid roomId playerName)
  | Intent.start roomId r => some (startGameHandler games roomId r)
  | Intent.stroke roomId data => some (drawHandler games roomId data)
  | Intent.clear roomId => some (clearCanvasHandler games roomId)
  | Intent.guess sid roomId text playerName r =>
      guessHandler games sid roomId text playerName r
  | Intent.disconnect sid => some (disconnectHandler games sid)

/-! ### Registry and score map lemmas -/

theorem gamesGet_mem {games : Games} {k : String} {g : Game}
    (h : gamesGet games k = some g) : (k, g) ∈ games := by
  induction games with
  | nil => simp [gamesGet] at h
  | cons e rest ih =>
    obtain ⟨a, b⟩ := e
    rw [gamesGet] at h
    split at h
    · next heq =>
      injection h with h
      subst h
      simp only at heq
      subst heq
      exact List.mem_cons_self _ _
    · exact List.mem_cons_of_mem _ (ih h)

theorem mem_gamesSet {games : Games} {k : String} {g : Game} {e : String × Game}
    (h : e ∈ gamesSet games k g) : e ∈ games ∨ e = (k, g) := by
  induction games with
  | nil =>
    right
    simpa [gamesSet] using h
  | cons e0 rest ih =>
    simp only [gamesSet] at h
    split at h
    · rcases List.mem_cons.mp h with h | h
      · right; exact h
      · left; exact List.mem_cons_of_mem _ h
    · rcases List.mem_cons.mp h with h | h
      · left; rw [h]; exact List.mem_cons_self _ _
      · rcases ih h with h | h
        · left; exact List.mem_cons_of_mem _ h
        · right; exact h

theorem gamesGet_gamesSet (games : Games) (k : String) (g : Game) :
    gamesGet (gamesSet games k g) k = some g := by
  induction games with
  | nil => simp [gamesSet, gamesGet]
  | cons e rest ih =>
    rw [gamesSet]
    split
    · rw [gamesGet]; simp
    · next hne => rw [gamesGet]; simp only [if_neg hne]; exact ih

theorem scoresGet_scoresSet (scores : List (String × JsNum)) (k : String)
    (v : JsNum) : scoresGet (scoresSet scores k v) k = some v := by
  induction scores with
  | nil => simp [scoresSet, scoresGet]
  | cons e rest ih =>
    rw [scoresSet]
    split
    · rw [scoresGet]; simp
    · next hne => rw [scoresGet]; simp only [if_neg hne]; exact ih

theorem getRandomWord_mem (r : Nat) : getRandomWord r ∈ words := by
  unfold getRandomWord
  have hlt : r % words.length < words.length := Nat.mod_lt _ (by decide)
  cases hw : words.get? (r % words.length) with
  | none => rw [List.get?_eq_none] at hw; omega
  | some w => simpa using List.get?_mem hw

theorem getRandomWord_ne_empty (r : Nat) : getRandomWord r ≠ "" := by
  have hall : ∀ w ∈ words, w ≠ "" := by decide
  exact hall _ (getRandomWord_mem r)

/-! ### C1 -/

/-- C1 (counterexample): the claim says `start()` on a Finished room is a
no-op returning no events.  On the reachable trace `A` joins, `B` joins,
start, `B` guesses correctly three times (finishing the game), a further
`start` emits a `gameStarted` event and changes the room state, because
`Game.startGame` never consults `gameState`. -/
theorem start_finished_room_restarts :
    (let t1 := (joinRoomHandler [] "A" "r1" "Alice").1
     let t2 := (joinRoomHandler t1 "B" "r1" "Bob").1
     let t3 := (startGameHandler t2 "r1" 0).1
     let t4 := ((guessHandler t3 "B" "r1" "cat" "Bob" 1).map Prod.fst).getD []
     let t5 := ((guessHandler t4 "B" "r1" "dog" "Bob" 2).map Prod.fst).getD []
     let t6 := ((guessHandler t5 "B" "r1" "house" "Bob" 3).map Prod.fst).getD []
     (gamesGet t6 "r1").map Game.gameState = some "finished" ∧
       (startGameHandler t6 "r1" 5).2 ≠ [] ∧
       (startGameHandler t6 "r1" 5).1 ≠ t6) := by
  decide

/-- C1 (amended): `start()` on an existing room succeeds exactly when the
room has at least two players, regardless of phase; with fewer than two
players it is a no-op that returns no events and leaves the registry
unchanged, and with two or more it (re)enters the playing phase with
round 1 and drawer `players[0]`. -/
theorem start_succeeds_iff_enough_players (games : Games) (roomId : String)
    (r : Nat) (game : Game) (h : gamesGet games roomId = some game) :
    (game.players.length < 2 → startGameHandler games roomId r = (games, [])) ∧
    (2 ≤ game.players.length →
      startGameHandler games roomId r =
        (gamesSet games roomId
          { game with
              gameState := "playing"
              round := 1
              currentDrawer := (game.players.get? 0).map Player.id
              currentWord := getRandomWord r
              drawingData := [] },
         [(Audience.wholeRoom roomId,
           Event.gameStarted ((game.players.get? 0).map Player.id)
             (getRandomWord r) 1 game.maxRounds)])) := by
  constructor
  · intro hlt
    simp only [startGameHandler, h, Game.startGame, if_pos hlt]
  · intro hge
    have hnlt : ¬ game.players.length < 2 := by omega
    simp only [startGameHandler, h, Game.startGame, if_neg hnlt]

/-- C1 witness: a one-player waiting room is left untouched by `start`. -/
theorem start_succeeds_iff_enough_players_witness :
    startGameHandler [("r1", (Game.new "r1").addPlayer "A" "Alice")] "r1" 0 =
      ([("r1", (Game.new "r1").addPlayer "A" "Alice")], []) :=
  (start_succeeds_iff_enough_players
    [("r1", (Game.new "r1").addPlayer "A" "Alice")] "r1" 0
    ((Game.new "r1").addPlayer "A" "Alice") (by decide)).1 (by decide)

/-! ### Round-advancement lemmas -/

theorem get?_mod_isSome {α : Type} (l : List α) (n : Nat) (h : l ≠ []) :
    ∃ a, l.get? (n % l.length) = some a ∧ a ∈ l := by
  have hl : 0 < l.length := List.length_pos.mpr h
  have hm := Nat.mod_lt n hl
  cases hx : l.get? (n % l.length) with
  | none => rw [List.get?_eq_none] at hx; omega
  | some a => exact ⟨a, rfl, List.get?_mem hx⟩

theorem nextDrawerIndex_lt (g : Game) (h : g.players ≠ []) :
    g.nextDrawerIndex < g.players.length :=
  Nat.mod_lt _ (List.length_pos.mpr h)

theorem nextRound_finish (g : Game) (r : Nat)
    (hr : g.maxRounds < g.round + 1) :
    g.nextRound r =
      some ({ g with round := g.round + 1, gameState := "finished" },
        false) := by
  unfold Game.nextRound
  dsimp only
  split
  · rfl
  · next hcond => exact absurd (by simpa using hr) hcond

theorem nextRound_continue (g : Game) (r : Nat) (p : Player)
    (hr : g.round + 1 ≤ g.maxRounds)
    (hp : g.players.get? g.nextDrawerIndex = some p) :
    g.nextRound r =
      some ({ g with
                round := g.round + 1
                currentDrawer := some p.id
                currentWord := getRandomWord r
                drawingData := [] }, true) := by
  unfold Game.nextRound
  dsimp only
  split
  · next hcond => omega
  · have hidx : ({ g with round := g.round + 1 } : Game).nextDrawerIndex =
        g.nextDrawerIndex := rfl
    simp only [hidx]
    rw [hp]

theorem nextRound_continue_exists (g : Game) (r : Nat)
    (hr : g.round + 1 ≤ g.maxRounds) (hne : g.players ≠ []) :
    ∃ p, p ∈ g.players ∧
      g.players.get? g.nextDrawerIndex = some p ∧
      g.nextRound r =
        some ({ g with
                  round := g.round + 1
                  currentDrawer := some p.id
                  currentWord := getRandomWord r
                  drawingData := [] }, true) := by
  obtain ⟨p, hp, hmem⟩ := get?_mod_isSome g.players
    (match g.players.findIdx? (fun q => g.currentDrawer = some q.id) with
     | some i => i + 1
     | none => 0) hne
  exact ⟨p, hmem, hp, nextRound_continue g r p hr hp⟩

theorem bumpScore_num (g : Game) (sid : String) (v : Int)
    (hs : scoresGet g.scores sid = some (JsNum.num v)) :
    g.bumpScore sid =
      { g with scores := scoresSet g.scores sid (JsNum.num (v + 10)) } := by
  unfold Game.bumpScore
  rw [hs]

/-! ### C2 -/

/-- C2: on an existing room in the playing phase, a guess from a member
holding integer score `v` matches exactly when the lowercased text
equals the lowercased current word (exact comparison, not substring):
on a match the guesser's score entry becomes `v + 10`, a `correctGuess`
event carrying the guesser's id, display name and text goes to the
whole room, immediately followed by the round-advancement event
(`nextRound` or `gameFinished`) to the whole room, in that order; on a
non-match no score changes and only the wrong-guess notice is sent. -/
theorem guess_match_scoring (games : Games)
    (sid roomId text playerName : String) (r : Nat) (game : Game) (v : Int)
    (hg : gamesGet games roomId = some game)
    (hp : game.gameState = "playing")
    (hs : scoresGet game.scores sid = some (JsNum.num v))
    (hne : game.players ≠ []) :
    (jsToLowerCase game.currentWord = jsToLowerCase text →
      ∃ game2 adv,
        guessHandler games sid roomId text playerName r =
          some (gamesSet games roomId game2,
            [(Audience.wholeRoom roomId,
              Event.correctGuess sid playerName text),
             (Audience.wholeRoom roomId, adv)]) ∧
        scoresGet game2.scores sid = some (JsNum.num (v + 10)) ∧
        ((∃ d w, adv = Event.nextRoundEv d w (game.round + 1) game2.scores) ∨
          adv = Event.gameFinished game2.scores game2.players)) ∧
    (jsToLowerCase game.currentWord ≠ jsToLowerCase text →
      guessHandler games sid roomId text playerName r =
        some (games,
          [(Audience.roomExceptSender roomId,
            Event.wrongGuess playerName text)])) := by
  constructor
  · intro hm
    have hb := bumpScore_num game sid v hs
    simp only [guessHandler, hg]
    rw [if_pos (And.intro hp hm)]
    by_cases hr : (game.bumpScore sid).maxRounds < (game.bumpScore sid).round + 1
    · rw [nextRound_finish (game.bumpScore sid) r hr]
      refine ⟨{ game.bumpScore sid with
                  round := (game.bumpScore sid).round + 1
                  gameState := "finished" }, _, rfl, ?_, Or.inr rfl⟩
      show scoresGet (game.bumpScore sid).scores sid = some (JsNum.num (v + 10))
      rw [hb]
      exact scoresGet_scoresSet game.scores sid (JsNum.num (v + 10))
    · have hne2 : (game.bumpScore sid).players ≠ [] := hne
      obtain ⟨p, hmem, hp2, heq⟩ := nextRound_continue_exists (game.bumpScore sid) r
        (by omega) hne2
      rw [heq]
      refine ⟨{ game.bumpScore sid with
                  round := (game.bumpScore sid).round + 1
                  currentDrawer := some p.id
                  currentWord := getRandomWord r
                  drawingData := [] }, _, rfl, ?_, Or.inl ⟨some p.id, getRandomWord r, rfl⟩⟩
      show scoresGet (game.bumpScore sid).scores sid = some (JsNum.num (v + 10))
      rw [hb]
      exact scoresGet_scoresSet game.scores sid (JsNum.num (v + 10))
  · intro hnm
    simp only [guessHandler, hg]
    rw [if_neg (fun hc => hnm hc.2)]

/-- C2 witness: word `"Cat"`, guess `"CAT"` from member `B` with score
0, in the room `⟨roomId, players, drawer, word, phase, round, maxRounds,
scores, strokes⟩`. -/
theorem guess_match_scoring_witness :
    ∃ game2 adv,
      guessHandler
          [("r1", ⟨"r1", [⟨"A", "Alice"⟩, ⟨"B", "Bob"⟩], some "A", "Cat",
            "playing", 1, 3, [("A", JsNum.num 0), ("B", JsNum.num 0)], []⟩)]
          "B" "r1" "CAT" "Bob" 1 =
        some (gamesSet
            [("r1", ⟨"r1", [⟨"A", "Alice"⟩, ⟨"B", "Bob"⟩], some "A", "Cat",
              "playing", 1, 3, [("A", JsNum.num 0), ("B", JsNum.num 0)], []⟩)]
            "r1" game2,
          [(Audience.wholeRoom "r1", Event.correctGuess "B" "Bob" "CAT"),
           (Audience.wholeRoom "r1", adv)]) ∧
      scoresGet game2.scores "B" = some (JsNum.num 10) ∧
      ((∃ d w, adv = Event.nextRoundEv d w 2 game2.scores) ∨
        adv = Event.gameFinished game2.scores game2.players) :=
  (guess_match_scoring
    [("r1", ⟨"r1", [⟨"A", "Alice"⟩, ⟨"B", "Bob"⟩], some "A", "Cat",
      "playing", 1, 3, [("A", JsNum.num 0), ("B", JsNum.num 0)], []⟩)]
    "B" "r1" "CAT" "Bob" 1
    ⟨"r1", [⟨"A", "Alice"⟩, ⟨"B", "Bob"⟩], some "A", "Cat",
      "playing", 1, 3, [("A", JsNum.num 0), ("B", JsNum.num 0)], []⟩
    0 (by decide) rfl (by decide) (by decide)).1 (by decide)

/-! ### C3 -/

/-- C3: in the playing phase with a matching guess, a room already at
`round = maxRounds` moves to the finished phase and broadcasts
`gameFinished` with the scores map and the player list (and no
`nextRound` event), while a room with `1 ≤ round < maxRounds`
broadcasts `nextRound` instead. -/
theorem guess_round_advancement (games : Games)
    (sid roomId text playerName : String) (r : Nat) (game : Game)
    (hg : gamesGet games roomId = some game)
    (hp : game.gameState = "playing")
    (hm : jsToLowerCase game.currentWord = jsToLowerCase text) :
    (game.round = game.maxRounds →
      guessHandler games sid roomId text playerName r =
        some (gamesSet games roomId
            { game.bumpScore sid with
                round := game.round + 1
                gameState := "finished" },
          [(Audience.wholeRoom roomId,
            Event.correctGuess sid playerName text),
           (Audience.wholeRoom roomId,
            Event.gameFinished (game.bumpScore sid).scores game.players)])) ∧
    (1 ≤ game.round → game.round < game.maxRounds → game.players ≠ [] →
      ∃ d w,
        guessHandler games sid roomId text playerName r =
          some (gamesSet games roomId
              { game.bumpScore sid with
                  round := game.round + 1
                  currentDrawer := some d
                  currentWord := w
                  drawingData := [] },
            [(Audience.wholeRoom roomId,
              Event.correctGuess sid playerName text),
             (Audience.wholeRoom roomId,
              Event.nextRoundEv (some d) w (game.round + 1)
                (game.bumpScore sid).scores)])) := by
  constructor
  · intro hround
    simp only [guessHandler, hg]
    rw [if_pos (And.intro hp hm)]
    rw [nextRound_finish (game.bumpScore sid) r
      (show game.maxRounds < game.round + 1 by omega)]
    rfl
  · intro h1 h2 hne
    simp only [guessHandler, hg]
    rw [if_pos (And.intro hp hm)]
    obtain ⟨p, hmem, hp2, heq⟩ :=
      nextRound_continue_exists (game.bumpScore sid) r
        (show game.round + 1 ≤ game.maxRounds by omega) hne
    rw [heq]
    exact ⟨p.id, getRandomWord r, rfl⟩

/-- C3 witness: a playing room at `round = maxRounds = 3`, word
`"boat"`, guessed correctly by `B`, finishes with scores and players. -/
theorem guess_round_advancement_witness :
    guessHandler
        [("r1", ⟨"r1", [⟨"A", "Alice"⟩, ⟨"B", "Bob"⟩], some "A", "boat",
          "playing", 3, 3, [("A", JsNum.num 0), ("B", JsNum.num 20)], []⟩)]
        "B" "r1" "Boat" "Bob" 7 =
      some (gamesSet
          [("r1", ⟨"r1", [⟨"A", "Alice"⟩, ⟨"B", "Bob"⟩], some "A", "boat",
            "playing", 3, 3, [("A", JsNum.num 0), ("B", JsNum.num 20)], []⟩)]
          "r1"
          { (⟨"r1", [⟨"A", "Alice"⟩, ⟨"B", "Bob"⟩], some "A", "boat",
              "playing", 3, 3, [("A", JsNum.num 0), ("B", JsNum.num 20)],
              []⟩ : Game).bumpScore "B" with
              round := 4
              gameState := "finished" },
        [(Audience.wholeRoom "r1", Event.correctGuess "B" "Bob" "Boat"),
         (Audience.wholeRoom "r1",
          Event.gameFinished
            ((⟨"r1", [⟨"A", "Alice"⟩, ⟨"B", "Bob"⟩], some "A", "boat",
              "playing", 3, 3, [("A", JsNum.num 0), ("B", JsNum.num 20)],
              []⟩ : Game).bumpScore "B").scores
            [⟨"A", "Alice"⟩, ⟨"B", "Bob"⟩])]) :=
  (guess_round_advancement
    [("r1", ⟨"r1", [⟨"A", "Alice"⟩, ⟨"B", "Bob"⟩], some "A", "boat",
      "playing", 3, 3, [("A", JsNum.num 0), ("B", JsNum.num 20)], []⟩)]
    "B" "r1" "Boat" "Bob" 7
    ⟨"r1", [⟨"A", "Alice"⟩, ⟨"B", "Bob"⟩], some "A", "boat",
      "playing", 3, 3, [("A", JsNum.num 0), ("B", JsNum.num 20)], []⟩
    rfl rfl (by decide)).1 rfl

/-! ### C4 -/

/-- C4: a round advancement that does not finish the game moves the
drawer to the player at index `(index of the old drawer + 1) mod
players.length` of the current player list. -/
theorem nextRound_rotates_drawer (g : Game) (r : Nat) (i : Nat)
    (hr : g.round + 1 ≤ g.maxRounds)
    (hi : g.players.findIdx? (fun p => g.currentDrawer = some p.id) = some i) :
    ∃ p, g.players.get? ((i + 1) % g.players.length) = some p ∧
      g.nextRound r =
        some ({ g with
                  round := g.round + 1
                  currentDrawer := some p.id
                  currentWord := getRandomWord r
                  drawingData := [] }, true) := by
  have hne : g.players ≠ [] := by
    intro h
    rw [h] at hi
    simp [List.findIdx?] at hi
  have hidx : g.nextDrawerIndex = (i + 1) % g.players.length := by
    unfold Game.nextDrawerIndex
    rw [hi]
  obtain ⟨p, hp, hmem⟩ := get?_mod_isSome g.players (i + 1) hne
  exact ⟨p, hp, nextRound_continue g r p hr (by rw [hidx]; exact hp)⟩

/-- C4 witness: players `[A, B, C]`, drawer `B` (index 1): the next
drawer is `C`; the same theorem applied at drawer `C` (index 2, in the
comment below) wraps to index 0. -/
theorem nextRound_rotates_drawer_witness :
    ∃ p, [(⟨"A", "Alice"⟩ : Player), ⟨"B", "Bob"⟩, ⟨"C", "Cara"⟩].get?
        ((1 + 1) %
          ([(⟨"A", "Alice"⟩ : Player), ⟨"B", "Bob"⟩, ⟨"C", "Cara"⟩].length)) =
        some p ∧
      (⟨"r1", [⟨"A", "Alice"⟩, ⟨"B", "Bob"⟩, ⟨"C", "Cara"⟩], some "B", "cat",
        "playing", 1, 3,
        [("A", JsNum.num 0), ("B", JsNum.num 0), ("C", JsNum.num 0)],
        []⟩ : Game).nextRound 0 =
        some ({ (⟨"r1", [⟨"A", "Alice"⟩, ⟨"B", "Bob"⟩, ⟨"C", "Cara"⟩],
                  some "B", "cat", "playing", 1, 3,
                  [("A", JsNum.num 0), ("B", JsNum.num 0), ("C", JsNum.num 0)],
                  []⟩ : Game) with
                  round := 2
                  currentDrawer := some p.id
                  currentWord := getRandomWord 0
                  drawingData := [] }, true) :=
  nextRound_rotates_drawer
    ⟨"r1", [⟨"A", "Alice"⟩, ⟨"B", "Bob"⟩, ⟨"C", "Cara"⟩], some "B", "cat",
      "playing", 1, 3,
      [("A", JsNum.num 0), ("B", JsNum.num 0), ("C", JsNum.num 0)], []⟩
    0 1 (by decide) (by decide)

/-! ### C5 -/

/-- Word half of the spec's Playing invariant. -/
def WordInv (g : Game) : Prop :=
  g.gameState = "playing" → g.currentWord ≠ ""

/-- Membership half of the spec's Playing invariant. -/
def DrawerInv (g : Game) : Prop :=
  g.gameState = "playing" → ∃ p ∈ g.players, g.currentDrawer = some p.id

theorem wordInv_new (roomId : String) : WordInv (Game.new roomId) := by
  intro h
  exact absurd (show "waiting" = "playing" from h) (by decide)

theorem drawerInv_new (roomId : String) : DrawerInv (Game.new roomId) := by
  intro h
  exact absurd (show "waiting" = "playing" from h) (by decide)

theorem wordInv_addPlayer {g : Game} (h : WordInv g) (pid pname : String) :
    WordInv (g.addPlayer pid pname) := h

theorem drawerInv_addPlayer {g : Game} (h : DrawerInv g) (pid pname : String) :
    DrawerInv (g.addPlayer pid pname) := by
  intro hp
  obtain ⟨p, hmem, hid⟩ := h hp
  exact ⟨p, List.mem_append_left _ hmem, hid⟩

theorem wordInv_addDrawingData {g : Game} (h : WordInv g) (d : StrokeData) :
    WordInv (g.addDrawingData d) := h

theorem drawerInv_addDrawingData {g : Game} (h : DrawerInv g) (d : StrokeData) :
    DrawerInv (g.addDrawingData d) := h

theorem wordInv_clearDrawing {g : Game} (h : WordInv g) :
    WordInv g.clearDrawing := h

theorem drawerInv_clearDrawing {g : Game} (h : DrawerInv g) :
    DrawerInv g.clearDrawing := h

theorem wordInv_removePlayer {g : Game} (h : WordInv g) (sid : String) :
    WordInv (g.removePlayer sid) := h

theorem startGame_invs {g : Game} {r : Nat} {g1 : Game} {ok : Bool}
    (h : g.startGame r = (g1, ok)) :
    (WordInv g → WordInv g1) ∧ (DrawerInv g → DrawerInv g1) := by
  unfold Game.startGame at h
  split at h
  · cases h
    exact ⟨id, id⟩
  · next hge =>
    cases h
    refine ⟨fun _ _ => getRandomWord_ne_empty r, fun _ _ => ?_⟩
    cases hps : g.players with
    | nil => rw [hps] at hge; simp at hge
    | cons a l => exact ⟨a, List.mem_cons_self _ _, rfl⟩

theorem nextRound_invs {g : Game} {r : Nat} {g2 : Game} {ok : Bool}
    (h : g.nextRound r = some (g2, ok)) :
    WordInv g2 ∧ DrawerInv g2 ∧ g2.players = g.players := by
  unfold Game.nextRound at h
  dsimp only at h
  split at h
  · cases h
    refine ⟨fun hp => absurd (show "finished" = "playing" from hp) (by decide),
      fun hp => absurd (show "finished" = "playing" from hp) (by decide), rfl⟩
  · split at h
    · next p hq =>
      cases h
      exact ⟨fun _ => getRandomWord_ne_empty r,
        fun hp => ⟨p, List.get?_mem hq, rfl⟩, rfl⟩
    · cases h

theorem wordInv_bumpScore {g : Game} (h : WordInv g) (sid : String) :
    WordInv (g.bumpScore sid) := h

theorem drawerInv_bumpScore {g : Game} (h : DrawerInv g) (sid : String) :
    DrawerInv (g.bumpScore sid) := h

theorem all_gamesSet {P : Game → Prop} {games : Games} {k : String} {g : Game}
    (hall : ∀ e ∈ games, P e.2) (hg : P g) :
    ∀ e ∈ gamesSet games k g, P e.2 := by
  intro e he
  rcases mem_gamesSet he with h | h
  · exact hall e h
  · rw [h]
    exact hg

/-- C5 (counterexample): the claim says the Playing invariant
(`currentDrawerId ∈ players`) is preserved by every operation,
leave/disconnect included.  On the reachable trace `A` joins, `B` joins,
start, `A` disconnects, the room is still Playing but its
`currentDrawer` `"A"` is no longer a member. -/
theorem playing_drawer_invariant_violated :
    (let t1 := (joinRoomHandler [] "A" "r1" "Alice").1
     let t2 := (joinRoomHandler t1 "B" "r1" "Bob").1
     let t3 := (startGameHandler t2 "r1" 0).1
     let t4 := (disconnectHandler t3 "A").1
     (gamesGet t4 "r1").map Game.gameState = some "playing" ∧
       (gamesGet t4 "r1").map Game.currentDrawer = some (some "A") ∧
       (gamesGet t4 "r1").map
           (fun g => decide (∃ p ∈ g.players, g.currentDrawer = some p.id)) =
         some false) := by
  decide

/-- C5 (amended): for every room in the registry, the half of the
Playing invariant stating `currentWord` is non-empty is preserved by
every operation; the half stating `currentDrawerId` is a member of
`players` is preserved by every operation except leave/disconnect (a
departing drawer leaves a Playing room whose drawer is not a member,
as the counterexample shows). -/
theorem playing_invariants_preservation (games games' : Games) (i : Intent)
    (evs : List (Audience × Event))
    (happly : applyIntent games i = some (games', evs)) :
    ((∀ e ∈ games, WordInv e.2) → ∀ e ∈ games', WordInv e.2) ∧
    ((∀ s, i ≠ Intent.disconnect s) →
      (∀ e ∈ games, DrawerInv e.2) → ∀ e ∈ games', DrawerInv e.2) := by
  cases i with
  | join sid roomId name =>
    simp only [applyIntent, Option.some.injEq] at happly
    have h1 : (joinRoomHandler games sid roomId name).1 = games' :=
      congrArg Prod.fst happly
    subst h1
    dsimp only [joinRoomHandler]
    constructor
    · intro hall
      apply all_gamesSet hall
      cases hgg : gamesGet games roomId with
      | some g0 => exact wordInv_addPlayer (hall _ (gamesGet_mem hgg)) sid name
      | none => exact wordInv_addPlayer (wordInv_new roomId) sid name
    · intro _ hall
      apply all_gamesSet hall
      cases hgg : gamesGet games roomId with
      | some g0 => exact drawerInv_addPlayer (hall _ (gamesGet_mem hgg)) sid name
      | none => exact drawerInv_addPlayer (drawerInv_new roomId) sid name
  | start roomId r =>
    simp only [applyIntent, Option.some.injEq] at happly
    have h1 : (startGameHandler games roomId r).1 = games' :=
      congrArg Prod.fst happly
    subst h1
    unfold startGameHandler
    cases hgg : gamesGet games roomId with
    | none =>
      dsimp only
      exact ⟨fun hall => hall, fun _ hall => hall⟩
    | some g0 =>
      dsimp only
      cases hsg : g0.startGame r with
      | mk game1 ok =>
        cases ok with
        | false =>
          dsimp only
          exact ⟨fun hall => hall, fun _ hall => hall⟩
        | true =>
          dsimp only
          constructor
          · intro hall
            exact all_gamesSet hall
              ((startGame_invs hsg).1 (hall _ (gamesGet_mem hgg)))
          · intro _ hall
            exact all_gamesSet hall
              ((startGame_invs hsg).2 (hall _ (gamesGet_mem hgg)))
  | stroke roomId data =>
    simp only [applyIntent, Option.some.injEq] at happly
    have h1 : (drawHandler games roomId data).1 = games' :=
      congrArg Prod.fst happly
    subst h1
    unfold drawHandler
    cases hgg : gamesGet games roomId with
    | none =>
      dsimp only
      exact ⟨fun hall => hall, fun _ hall => hall⟩
    | some g0 =>
      dsimp only
      by_cases hps : g0.gameState = "playing"
      · rw [if_pos hps]
        constructor
        · intro hall
          exact all_gamesSet hall
            (wordInv_addDrawingData (hall _ (gamesGet_mem hgg)) data)
        · intro _ hall
          exact all_gamesSet hall
            (drawerInv_addDrawingData (hall _ (gamesGet_mem hgg)) data)
      · rw [if_neg hps]
        exact ⟨fun hall => hall, fun _ hall => hall⟩
  | clear roomId =>
    simp only [applyIntent, Option.some.injEq] at happly
    have h1 : (clearCanvasHandler games roomId).1 = games' :=
      congrArg Prod.fst happly
    subst h1
    unfold clearCanvasHandler
    cases hgg : gamesGet games roomId with
    | none =>
      dsimp only
      exact ⟨fun hall => hall, fun _ hall => hall⟩
    | some g0 =>
      dsimp only
      constructor
      · intro hall
        exact all_gamesSet hall (wordInv_clearDrawing (hall _ (gamesGet_mem hgg)))
      · intro _ hall
        exact all_gamesSet hall (drawerInv_clearDrawing (hall _ (gamesGet_mem hgg)))
  | guess sid roomId text name r =>
    simp only [applyIntent] at happly
    unfold guessHandler at happly
    cases hgg : gamesGet games roomId with
    | none =>
      rw [hgg] at happly
      dsimp only at happly
      simp only [Option.some.injEq] at happly
      have h1 : games = games' := congrArg Prod.fst happly
      subst h1
      exact ⟨fun hall => hall, fun _ hall => hall⟩
    | some g0 =>
      rw [hgg] at happly
      dsimp only at happly
      by_cases hc : g0.gameState = "playing" ∧
          jsToLowerCase g0.currentWord = jsToLowerCase text
      · rw [if_pos hc] at happly
        cases hnr : (g0.bumpScore sid).nextRound r with
        | none =>
          rw [hnr] at happly
          cases happly
        | some pr =>
          cases pr with
          | mk game2 ok =>
            have hinv := nextRound_invs hnr
            cases ok with
            | true =>
              rw [hnr] at happly
              dsimp only at happly
              simp only [Option.some.injEq] at happly
              have h1 : gamesSet games roomId game2 = games' :=
                congrArg Prod.fst happly
              subst h1
              exact ⟨fun hall => all_gamesSet hall hinv.1,
                fun _ hall => all_gamesSet hall hinv.2.1⟩
            | false =>
              rw [hnr] at happly
              dsimp only at happly
              simp only [Option.some.injEq] at happly
              have h1 : gamesSet games roomId game2 = games' :=
                congrArg Prod.fst happly
              subst h1
              exact ⟨fun hall => all_gamesSet hall hinv.1,
                fun _ hall => all_gamesSet hall hinv.2.1⟩
      · rw [if_neg hc] at happly
        simp only [Option.some.injEq] at happly
        have h1 : games = games' := congrArg Prod.fst happly
        subst h1
        exact ⟨fun hall => hall, fun _ hall => hall⟩
  | disconnect sid =>
    simp only [applyIntent, Option.some.injEq] at happly
    have h1 : (disconnectHandler games sid).1 = games' :=
      congrArg Prod.fst happly
    subst h1
    constructor
    · intro hall e he
      obtain ⟨e0, he0, hfe⟩ := List.mem_filterMap.mp he
      unfold disconnectEntry at hfe
      split at hfe
      · dsimp only at hfe
        split at hfe
        · cases hfe
        · cases hfe
          exact wordInv_removePlayer (hall e0 he0) sid
      · cases hfe
        exact hall _ he0
    · intro hnd _
      exact absurd rfl (hnd sid)

/-- C5 witness: a `clear` intent on a concrete playing room preserves
both invariant halves. -/
theorem playing_invariants_preservation_witness :
    ((∀ e ∈ ([("r1", ⟨"r1", [⟨"A", "Alice"⟩, ⟨"B", "Bob"⟩], some "A", "cat",
        "playing", 1, 3, [("A", JsNum.num 0), ("B", JsNum.num 0)],
        [⟨"x"⟩]⟩)] : Games), WordInv e.2) →
      ∀ e ∈ gamesSet
          [("r1", ⟨"r1", [⟨"A", "Alice"⟩, ⟨"B", "Bob"⟩], some "A", "cat",
            "playing", 1, 3, [("A", JsNum.num 0), ("B", JsNum.num 0)],
            [⟨"x"⟩]⟩)] "r1"
          (Game.clearDrawing
            ⟨"r1", [⟨"A", "Alice"⟩, ⟨"B", "Bob"⟩], some "A", "cat",
              "playing", 1, 3, [("A", JsNum.num 0), ("B", JsNum.num 0)],
              [⟨"x"⟩]⟩),
        WordInv e.2) ∧
    ((∀ s, Intent.clear "r1" ≠ Intent.disconnect s) →
      (∀ e ∈ ([("r1", ⟨"r1", [⟨"A", "Alice"⟩, ⟨"B", "Bob"⟩], some "A", "cat",
        "playing", 1, 3, [("A", JsNum.num 0), ("B", JsNum.num 0)],
        [⟨"x"⟩]⟩)] : Games), DrawerInv e.2) →
      ∀ e ∈ gamesSet
          [("r1", ⟨"r1", [⟨"A", "Alice"⟩, ⟨"B", "Bob"⟩], some "A", "cat",
            "playing", 1, 3, [("A", JsNum.num 0), ("B", JsNum.num 0)],
            [⟨"x"⟩]⟩)] "r1"
          (Game.clearDrawing
            ⟨"r1", [⟨"A", "Alice"⟩, ⟨"B", "Bob"⟩], some "A", "cat",
              "playing", 1, 3, [("A", JsNum.num 0), ("B", JsNum.num 0)],
              [⟨"x"⟩]⟩),
        DrawerInv e.2) :=
  playing_invariants_preservation
    [("r1", ⟨"r1", [⟨"A", "Alice"⟩, ⟨"B", "Bob"⟩], some "A", "cat",
      "playing", 1, 3, [("A", JsNum.num 0), ("B", JsNum.num 0)], [⟨"x"⟩]⟩)]
    (gamesSet
      [("r1", ⟨"r1", [⟨"A", "Alice"⟩, ⟨"B", "Bob"⟩], some "A", "cat",
        "playing", 1, 3, [("A", JsNum.num 0), ("B", JsNum.num 0)], [⟨"x"⟩]⟩)]
      "r1"
      (Game.clearDrawing
        ⟨"r1", [⟨"A", "Alice"⟩, ⟨"B", "Bob"⟩], some "A", "cat",
          "playing", 1, 3, [("A", JsNum.num 0), ("B", JsNum.num 0)], [⟨"x"⟩]⟩))
    (Intent.clear "r1")
    [(Audience.roomExceptSender "r1", Event.canvasCleared)] rfl

/-! ### C6 -/

/-- C6 (counterexample): the claim says that after every join, `players`
contains exactly one entry with the joining id, even when the id is
already a member.  Joining `"A"` twice yields two entries with id
`"A"`, because `addPlayer` pushes unconditionally. -/
theorem join_duplicate_member :
    (let t1 := (joinRoomHandler [] "A" "r1" "Alice").1
     let t2 := (joinRoomHandler t1 "A" "r1" "Alice").1
     (gamesGet t2 "r1").map
         (fun g => g.players.countP (fun p => p.id = "A")) = some 2) := by
  decide

/-- C6 (amended): after `join(connectionId, name)`, the room's score
entry for `connectionId` is 0 and `players` has gained exactly one new
entry with that id; the total is therefore exactly one only when the id
was not already a member (a join of an existing member appends a
duplicate). -/
theorem join_sets_score_and_adds_entry (games : Games)
    (sid roomId name : String) :
    (let g0 := match gamesGet games roomId with
               | some g => g
               | none => Game.new roomId
     gamesGet (joinRoomHandler games sid roomId name).1 roomId =
        some (g0.addPlayer sid name) ∧
      scoresGet (g0.addPlayer sid name).scores sid = some (JsNum.num 0) ∧
      (g0.addPlayer sid name).players.countP (fun p => p.id = sid) =
        g0.players.countP (fun p => p.id = sid) + 1 ∧
      ((∀ p ∈ g0.players, p.id ≠ sid) →
        (g0.addPlayer sid name).players.countP (fun p => p.id = sid) = 1)) := by
  intro g0
  refine ⟨?_, ?_, ?_, ?_⟩
  · dsimp only [joinRoomHandler]
    exact gamesGet_gamesSet games roomId (g0.addPlayer sid name)
  · exact scoresGet_scoresSet g0.scores sid (JsNum.num 0)
  · show (g0.players ++ [(⟨sid, name⟩ : Player)]).countP
        (fun p => decide (p.id = sid)) =
      g0.players.countP (fun p => decide (p.id = sid)) + 1
    rw [List.countP_append]
    simp [List.countP_cons]
  · intro habs
    show (g0.players ++ [(⟨sid, name⟩ : Player)]).countP
        (fun p => decide (p.id = sid)) = 1
    rw [List.countP_append]
    have hz : g0.players.countP (fun p => decide (p.id = sid)) = 0 := by
      rw [List.countP_eq_zero]
      intro a ha
      simpa using habs a ha
    rw [hz]
    simp [List.countP_cons]

/-- C6 witness: joining a fresh id `"B"` into a one-player room. -/
theorem join_sets_score_and_adds_entry_witness :
    (let g0 := match gamesGet
        [("r1", ⟨"r1", [⟨"A", "Alice"⟩], some "A", "cat", "playing", 1, 3,
          [("A", JsNum.num 0)], []⟩)] "r1" with
               | some g => g
               | none => Game.new "r1"
     gamesGet (joinRoomHandler
        [("r1", ⟨"r1", [⟨"A", "Alice"⟩], some "A", "cat", "playing", 1, 3,
          [("A", JsNum.num 0)], []⟩)] "B" "r1" "Bob").1 "r1" =
        some (g0.addPlayer "B" "Bob") ∧
      scoresGet (g0.addPlayer "B" "Bob").scores "B" = some (JsNum.num 0) ∧
      (g0.addPlayer "B" "Bob").players.countP (fun p => p.id = "B") =
        g0.players.countP (fun p => p.id = "B") + 1 ∧
      ((∀ p ∈ g0.players, p.id ≠ "B") →
        (g0.addPlayer "B" "Bob").players.countP (fun p => p.id = "B") = 1)) :=
  join_sets_score_and_adds_entry
    [("r1", ⟨"r1", [⟨"A", "Alice"⟩], some "A", "cat", "playing", 1, 3,
      [("A", JsNum.num 0)], []⟩)] "B" "r1" "Bob"

/-! ### C7 -/

/-- C7: a guess on an existing room that does not satisfy the match
condition (wrong text, or phase not Playing) emits exactly one
`wrongGuess` event carrying the display name and text, addressed to the
room except the sender, and leaves the whole registry — hence the
entire room state — unchanged. -/
theorem guess_wrong_branch_noop (games : Games)
    (sid roomId text playerName : String) (r : Nat) (game : Game)
    (hg : gamesGet games roomId = some game)
    (h : ¬(game.gameState = "playing" ∧
        jsToLowerCase game.currentWord = jsToLowerCase text)) :
    guessHandler games sid roomId text playerName r =
      some (games,
        [(Audience.roomExceptSender roomId,
          Event.wrongGuess playerName text)]) := by
  simp only [guessHandler, hg]
  rw [if_neg h]

/-- C7 witness: guessing `"dog"` against word `"cat"` in a concrete
playing room changes nothing and notifies the rest of the room. -/
theorem guess_wrong_branch_noop_witness :
    guessHandler
        [("r1", ⟨"r1", [⟨"A", "Alice"⟩, ⟨"B", "Bob"⟩], some "A", "cat",
          "playing", 1, 3, [("A", JsNum.num 0), ("B", JsNum.num 0)], []⟩)]
        "B" "r1" "dog" "Bob" 4 =
      some ([("r1", ⟨"r1", [⟨"A", "Alice"⟩, ⟨"B", "Bob"⟩], some "A", "cat",
          "playing", 1, 3, [("A", JsNum.num 0), ("B", JsNum.num 0)], []⟩)],
        [(Audience.roomExceptSender "r1", Event.wrongGuess "Bob" "dog")]) :=
  guess_wrong_branch_noop
    [("r1", ⟨"r1", [⟨"A", "Alice"⟩, ⟨"B", "Bob"⟩], some "A", "cat",
      "playing", 1, 3, [("A", JsNum.num 0), ("B", JsNum.num 0)], []⟩)]
    "B" "r1" "dog" "Bob" 4
    ⟨"r1", [⟨"A", "Alice"⟩, ⟨"B", "Bob"⟩], some "A", "cat",
      "playing", 1, 3, [("A", JsNum.num 0), ("B", JsNum.num 0)], []⟩
    (by decide) (by decide)

/-! ### C8 -/

/-- C8 (counterexample): the claim says every start/stroke/clear/guess
intent on a nonexistent room emits no outbound event.  A guess on a
nonexistent room falls into the source's `else` branch and emits a
`wrongGuess` event. -/
theorem guess_missing_room_emits_wrong_guess :
    guessHandler ([] : Games) "s" "r" "x" "n" 0 =
      some ([], [(Audience.roomExceptSender "r", Event.wrongGuess "n" "x")]) ∧
    ([(Audience.roomExceptSender "r", Event.wrongGuess "n" "x")] :
      List (Audience × Event)) ≠ [] := by
  decide

/-- C8 (amended): a start, stroke, or clear intent whose roomId names no
existing room is a silent no-op (registry unchanged, no events); a
guess on a nonexistent room leaves the registry unchanged but emits a
`wrongGuess` event to the room except the sender. -/
theorem missing_room_behavior (games : Games)
    (roomId sid text playerName : String) (r : Nat) (data : StrokeData)
    (h : gamesGet games roomId = none) :
    startGameHandler games roomId r = (games, []) ∧
    drawHandler games roomId data = (games, []) ∧
    clearCanvasHandler games roomId = (games, []) ∧
    guessHandler games sid roomId text playerName r =
      some (games,
        [(Audience.roomExceptSender roomId,
          Event.wrongGuess playerName text)]) := by
  refine ⟨?_, ?_, ?_, ?_⟩
  · simp only [startGameHandler, h]
  · simp only [drawHandler, h]
  · simp only [clearCanvasHandler, h]
  · simp only [guessHandler, h]

/-- C8 witness: the empty registry with room id `"nope"`. -/
theorem missing_room_behavior_witness :
    startGameHandler ([] : Games) "nope" 0 = ([], []) ∧
    drawHandler ([] : Games) "nope" ⟨"d"⟩ = ([], []) ∧
    clearCanvasHandler ([] : Games) "nope" = ([], []) ∧
    guessHandler ([] : Games) "s1" "nope" "cat" "Ann" 0 =
      some ([],
        [(Audience.roomExceptSender "nope", Event.wrongGuess "Ann" "cat")]) :=
  missing_room_behavior [] "nope" "s1" "cat" "Ann" 0 ⟨"d"⟩ rfl

/-! ### C9 -/

theorem disconnectEntry_key (sid : String) (e e' : String × Game)
    (h : (disconnectEntry sid e).1 = some e') : e'.1 = e.1 := by
  unfold disconnectEntry at h
  split at h
  · dsimp only at h
    split at h
    · cases h
    · rw [← Option.some.inj h]
  · dsimp only at h
    rw [Option.some.inj h]

/-- C9: disconnecting a member removes exactly that player's entry from
`players` and its key from `scores`, and nothing else: the surviving
room keeps its `currentDrawer`, `currentWord`, `gameState`, `round` and
`drawingData` (every field except the two shown is inherited unchanged),
even when the departing player was the current drawer. -/
theorem disconnect_removes_only_departed (games : Games) (sid roomId : String)
    (game : Game) (p : Player)
    (hg : gamesGet games roomId = some game)
    (hmem : p ∈ game.players) (hid : p.id = sid)
    (hne : (game.removePlayer sid).players ≠ []) :
    gamesGet (disconnectHandler games sid).1 roomId =
      some { game with
               players := game.players.filter (fun q => q.id ≠ sid)
               scores := scoresDel game.scores sid } := by
  induction games with
  | nil => simp [gamesGet] at hg
  | cons e rest ih =>
    obtain ⟨k0, g0⟩ := e
    unfold disconnectHandler
    dsimp only
    rw [List.filterMap_cons]
    by_cases hk : k0 = roomId
    · subst hk
      have hg0 : g0 = game := by
        have := hg
        simp only [gamesGet, if_pos rfl] at this
        exact Option.some.inj this
      subst hg0
      have hsome : (g0.players.find? (fun q => decide (q.id = sid))).isSome :=
        List.find?_isSome.mpr ⟨p, hmem, by simp [hid]⟩
      obtain ⟨pl, hpl⟩ := Option.isSome_iff_exists.mp hsome
      unfold disconnectEntry
      dsimp only
      rw [hpl]
      dsimp only
      rw [if_neg (fun hh => hne (List.length_eq_zero.mp hh))]
      dsimp only
      simp only [gamesGet, if_pos rfl]
      rfl
    · have hg' : gamesGet rest roomId = some game := by
        have := hg
        simp only [gamesGet, if_neg hk] at this
        exact this
      cases hde : (disconnectEntry sid (k0, g0)).1 with
      | none =>
        dsimp only
        exact ih hg'
      | some e' =>
        dsimp only
        have hk' : e'.1 = k0 := disconnectEntry_key sid (k0, g0) e' hde
        simp only [gamesGet]
        rw [if_neg (fun hh => hk (hk' ▸ hh))]
        exact ih hg'

/-- C9 witness: room `[A, B]`, drawer `A` disconnects mid-round; the
survivor `B` keeps the stalled round with drawer still `"A"`. -/
theorem disconnect_removes_only_departed_witness :
    gamesGet (disconnectHandler
        [("r1", ⟨"r1", [⟨"A", "Alice"⟩, ⟨"B", "Bob"⟩], some "A", "cat",
          "playing", 2, 3, [("A", JsNum.num 10), ("B", JsNum.num 0)],
          [⟨"x"⟩]⟩)] "A").1 "r1" =
      some { (⟨"r1", [⟨"A", "Alice"⟩, ⟨"B", "Bob"⟩], some "A", "cat",
          "playing", 2, 3, [("A", JsNum.num 10), ("B", JsNum.num 0)],
          [⟨"x"⟩]⟩ : Game) with
          players := [(⟨"A", "Alice"⟩ : Player), ⟨"B", "Bob"⟩].filter
            (fun q => q.id ≠ "A")
          scores := scoresDel [("A", JsNum.num 10), ("B", JsNum.num 0)] "A" } :=
  disconnect_removes_only_departed
    [("r1", ⟨"r1", [⟨"A", "Alice"⟩, ⟨"B", "Bob"⟩], some "A", "cat",
      "playing", 2, 3, [("A", JsNum.num 10), ("B", JsNum.num 0)], [⟨"x"⟩]⟩)]
    "A" "r1"
    ⟨"r1", [⟨"A", "Alice"⟩, ⟨"B", "Bob"⟩], some "A", "cat",
      "playing", 2, 3, [("A", JsNum.num 10), ("B", JsNum.num 0)], [⟨"x"⟩]⟩
    ⟨"A", "Alice"⟩ (by decide) (by decide) rfl (by decide)

/-! ### C10 -/

/-- C10: a non-final round advancement performed while the current
drawer is not a member of the (non-empty) player list hands the round
to `players[0]`: `findIndex` misses with `-1`, and
`(-1 + 1) mod players.length = 0`. -/
theorem nextRound_absent_drawer_resets (g : Game) (r : Nat)
    (hr : g.round + 1 ≤ g.maxRounds)
    (hne : g.players ≠ [])
    (habs : ∀ p ∈ g.players, ¬ g.currentDrawer = some p.id) :
    ∃ p0, g.players.get? 0 = some p0 ∧
      g.nextRound r =
        some ({ g with
                  round := g.round + 1
                  currentDrawer := some p0.id
                  currentWord := getRandomWord r
                  drawingData := [] }, true) := by
  have hfi : g.players.findIdx? (fun p => g.currentDrawer = some p.id) = none := by
    rw [List.findIdx?_eq_none_iff]
    intro x hx
    simpa using habs x hx
  have hidx : g.nextDrawerIndex = 0 := by
    unfold Game.nextDrawerIndex
    rw [hfi]
    exact Nat.zero_mod _
  have hlen : 0 < g.players.length := List.length_pos.mpr hne
  have h0 := List.get?_eq_get hlen
  exact ⟨g.players.get ⟨0, hlen⟩, h0,
    nextRound_continue g r _ hr (by rw [hidx]; exact h0)⟩

/-- C10 witness: room `[B]` whose drawer `"A"` has left; the round
advances to drawer `B` (= `players[0]`). -/
theorem nextRound_absent_drawer_resets_witness :
    ∃ p0, [(⟨"B", "Bob"⟩ : Player)].get? 0 = some p0 ∧
      (⟨"r1", [⟨"B", "Bob"⟩], some "A", "cat", "playing", 1, 3,
        [("B", JsNum.num 0)], []⟩ : Game).nextRound 4 =
        some ({ (⟨"r1", [⟨"B", "Bob"⟩], some "A", "cat", "playing", 1, 3,
                  [("B", JsNum.num 0)], []⟩ : Game) with
                  round := 2
                  currentDrawer := some p0.id
                  currentWord := getRandomWord 4
                  drawingData := [] }, true) :=
  nextRound_absent_drawer_resets
    ⟨"r1", [⟨"B", "Bob"⟩], some "A", "cat", "playing", 1, 3,
      [("B", JsNum.num 0)], []⟩
    4 (by decide) (by decide) (by decide)
